import Mathlib

/-!
Shallow embedding of the YanLing CTF platform's submission & scoring engine
(`app/models/challenge.py`, `app/models/submission.py`, `app/models/user.py`,
`app/models/team.py`, `app/views/challenges.py`, `app/views/main.py`).

The database is modelled as in-memory lists; rows appear in insertion order
(primary keys ascending), which is the order the ORM yields rows absent an
explicit ORDER BY and the order collections are iterated in.
-/

namespace YanLing

/-- ASCII whitespace recognised by Python's `str.strip`:
space, tab, newline, carriage return, vertical tab, form feed. -/
def pyIsSpace (c : Char) : Bool :=
  c.toNat == 32 || c.toNat == 9 || c.toNat == 10 || c.toNat == 13 ||
    c.toNat == 11 || c.toNat == 12

/-- Python `str.lower` restricted to ASCII: map A-Z to a-z, fix everything else. -/
def pyToLower (c : Char) : Char :=
  if 65 ≤ c.toNat ∧ c.toNat ≤ 90 then Char.ofNat (c.toNat + 32) else c

/-- `str.strip()` on the character list: drop leading and trailing whitespace. -/
def stripList (l : List Char) : List Char :=
  ((l.dropWhile pyIsSpace).reverse.dropWhile pyIsSpace).reverse

/-- `str.lower()` on the character list. -/
def lowerList (l : List Char) : List Char :=
  l.map pyToLower

/-- Python `str.strip()`. -/
def pyStrip (s : String) : String :=
  ⟨stripList s.toList⟩

/-- Python `str.lower()`. -/
def pyLower (s : String) : String :=
  ⟨lowerList s.toList⟩

/-- Row of the `submissions` table. -/
structure Submission where
  id : Nat
  user_id : Nat
  challenge_id : Nat
  submitted_flag : String
  is_correct : Bool
  points_awarded : Int
  created_at : Nat
deriving DecidableEq

/-- Row of the `challenges` table (fields the scoring engine reads). -/
structure Challenge where
  id : Nat
  flag : String
  points : Int
  max_attempts : Nat
  is_active : Bool
  is_dynamic : Bool
deriving DecidableEq

/-- Row of the `users` table (fields the scoring engine reads). -/
structure User where
  id : Nat
  team_id : Option Nat
deriving DecidableEq

/-- Row of the `teams` table (fields the scoring engine reads). -/
structure Team where
  id : Nat
deriving DecidableEq

/-- The database state. Lists are in insertion order, ids ascending. -/
structure DB where
  challenges : List Challenge
  users : List User
  teams : List Team
  submissions : List Submission
deriving DecidableEq

/-- The `challenge.submissions` relationship collection. -/
def challengeSubs (subs : List Submission) (cid : Nat) : List Submission :=
  subs.filter (fun s => s.challenge_id == cid)

/-- `Challenge.check_flag`: `self.flag.strip().lower() == submitted_flag.strip().lower()`. -/
def Challenge.check_flag (c : Challenge) (submitted_flag : String) : Bool :=
  pyLower (pyStrip c.flag) == pyLower (pyStrip submitted_flag)

/-- `Challenge.get_dynamic_points`, over the challenge's submission collection. -/
def Challenge.get_dynamic_points (c : Challenge) (challenge_submissions : List Submission) : Int :=
  if !c.is_dynamic then c.points
  else
    let solved_count : Int := ((challenge_submissions.filter (fun s => s.is_correct)).length : Int)
    let decay_factor : Int := 5
    let min_points : Int := max 10 (Int.fdiv c.points 4)
    max min_points (c.points - solved_count * decay_factor)

/-- `Challenge.get_solve_count`. -/
def Challenge.get_solve_count (c : Challenge) (subs : List Submission) : Nat :=
  ((challengeSubs subs c.id).filter (fun s => s.is_correct)).length

/-- `Challenge.get_attempt_count`. -/
def Challenge.get_attempt_count (c : Challenge) (subs : List Submission) : Nat :=
  (challengeSubs subs c.id).length

/-- `Challenge.is_solved_by_user`. -/
def Challenge.is_solved_by_user (c : Challenge) (subs : List Submission) (uid : Nat) : Bool :=
  (challengeSubs subs c.id).any (fun s => s.user_id == uid && s.is_correct)

/-- `Challenge.get_solve_rate`: percentage of correct attempts, 0 when no attempts. -/
def Challenge.get_solve_rate (c : Challenge) (subs : List Submission) : ℚ :=
  let total_attempts := c.get_attempt_count subs
  if total_attempts = 0 then 0
  else ((c.get_solve_count subs : ℚ) / (total_attempts : ℚ)) * 100

/-- What the `ORDER BY created_at ASC ... .first()` query over the correct
submissions of a challenge guarantees about its result: a correct submission
of the challenge with minimal `created_at`. The query has no secondary sort
key, and the storage engine leaves the relative order of equal-key rows
undefined, so which row of a timestamp tie is returned is NOT determined:
every `f` satisfying this predicate is an admissible result. -/
def IsFirstSolveResult (cid : Nat) (subs : List Submission) (f : Submission) : Prop :=
  f ∈ subs ∧ f.challenge_id = cid ∧ f.is_correct = true ∧
    ∀ t ∈ subs, t.challenge_id = cid → t.is_correct = true →
      f.created_at ≤ t.created_at

instance (cid : Nat) (subs : List Submission) (f : Submission) :
    Decidable (IsFirstSolveResult cid subs f) :=
  inferInstanceAs (Decidable (f ∈ subs ∧ f.challenge_id = cid ∧
    f.is_correct = true ∧
    ∀ t ∈ subs, t.challenge_id = cid → t.is_correct = true →
      f.created_at ≤ t.created_at))

/-- One admissible resolution of the first-solve query, used where the submit
flow needs a computed value: it keeps the earliest-inserted row of a timestamp
tie. This is a modelling choice, not a guarantee of the source query;
`IsFirstSolveResult` states exactly what the query promises, and
`firstSolve_admissible` below places this function inside that contract. -/
def firstSolve (cid : Nat) : List Submission → Option Submission
  | [] => none
  | s :: rest =>
    if s.challenge_id = cid ∧ s.is_correct = true then
      match firstSolve cid rest with
      | none => some s
      | some b => if b.created_at < s.created_at then some b else some s
    else firstSolve cid rest

/-- `Challenge.get_first_blood`: returns one admissible result of the query. -/
def Challenge.get_first_blood (c : Challenge) (subs : List Submission) : Option Submission :=
  firstSolve c.id subs

/-- `Submission.is_first_blood`, parameterised by the row the first-solve
query returned: `first_solve and first_solve.id == self.id`. -/
def is_first_blood_given (s : Submission) (first_solve : Option Submission) : Bool :=
  s.is_correct &&
    match first_solve with
    | some f => f.id == s.id
    | none => false

/-- `Submission.is_first_blood`, evaluated against the admissible query result
that `firstSolve` fixes. -/
def Submission.is_first_blood (s : Submission) (subs : List Submission) : Bool :=
  is_first_blood_given s (firstSolve s.challenge_id subs)

/-- `Submission.get_rank`: 1 + number of correct submissions for the same
challenge with strictly earlier `created_at` (no id tiebreak in the source). -/
def Submission.get_rank (s : Submission) (subs : List Submission) : Option Nat :=
  if !s.is_correct then none
  else
    some ((subs.filter (fun t =>
      t.challenge_id == s.challenge_id && t.is_correct &&
        decide (t.created_at < s.created_at))).length + 1)

/-- `Submission.get_user_submissions(user_id, challenge_id)` (length is all the
caller uses). -/
def get_user_submissions (subs : List Submission) (uid cid : Nat) : List Submission :=
  subs.filter (fun s => s.user_id == uid && s.challenge_id == cid)

/-- `Submission.check_and_update_correctness`. Setting `submission.challenge`
fires the `back_populates` event, which appends the pending submission to the
already-loaded `challenge.submissions` collection; since `is_correct` is set
to `True` before `get_dynamic_points` runs, the solve count that function sees
includes the submission being scored. The `++ [s']` term models that append. -/
def check_and_update_correctness (s : Submission) (c : Challenge)
    (all_submissions : List Submission) : Submission :=
  if c.check_flag s.submitted_flag then
    let s' : Submission := { s with is_correct := true }
    let awarded : Int :=
      if c.is_dynamic then
        c.get_dynamic_points (challengeSubs all_submissions c.id ++ [s'])
      else c.points
    { s' with points_awarded := awarded }
  else
    { s with is_correct := false, points_awarded := 0 }

/-- Outcome of `submit_flag` in `app/views/challenges.py`. -/
inductive SubmitResult where
  | challengeUnavailable
  | alreadySolved
  | emptyFlag
  | attemptLimitExceeded
  | correct (points : Int) (first_blood : Bool)
  | incorrect
deriving DecidableEq

/-- `Challenge.query.get(challenge_id)`. -/
def findChallenge (db : DB) (cid : Nat) : Option Challenge :=
  db.challenges.find? (fun c => c.id == cid)

/-- The freshly constructed `Submission(...)` row of the submit view, before
`check_and_update_correctness` runs. -/
def newSubmission (new_id uid cid : Nat) (flag : String) (now : Nat) : Submission :=
  { id := new_id, user_id := uid, challenge_id := cid, submitted_flag := flag,
    is_correct := false, points_awarded := 0, created_at := now }

/-- Commit of the checked submission and the response built from it. -/
def submitOutcome (db : DB) (s : Submission) : SubmitResult × DB :=
  let db' : DB := { db with submissions := db.submissions ++ [s] }
  if s.is_correct = true then
    (.correct s.points_awarded (s.is_first_blood db'.submissions), db')
  else
    (.incorrect, db')

/-- The `submit_flag` view: precondition checks in source order, then the
ledger insert. `now` is the wall clock, `new_id` the fresh primary key. -/
def submit_flag (db : DB) (uid cid : Nat) (raw_flag : String) (now new_id : Nat) :
    SubmitResult × DB :=
  match findChallenge db cid with
  | none => (.challengeUnavailable, db)
  | some c =>
    if ¬c.is_active = true then (.challengeUnavailable, db)
    else if c.is_solved_by_user db.submissions uid = true then (.alreadySolved, db)
    else if pyStrip raw_flag = "" then (.emptyFlag, db)
    else if 0 < c.max_attempts ∧
        c.max_attempts ≤ (get_user_submissions db.submissions uid cid).length then
      (.attemptLimitExceeded, db)
    else
      submitOutcome db
        (check_and_update_correctness
          (newSubmission new_id uid cid (pyStrip raw_flag) now) c db.submissions)

/-- `submission.challenge.points` via `Challenge.query.get`; a missing challenge
contributes nothing (the source skips `None` lookups in `Team.get_score`). -/
def challengePoints (db : DB) (cid : Nat) : Int :=
  match findChallenge db cid with
  | some c => c.points
  | none => 0

/-- The `solved_challenges` accumulation in `Team.get_score`: every challenge id
of a correct submission by a current member, in iteration order, duplicates kept
(the Python code inserts them into a set, modelled below by `dedup`). -/
def teamSolvedChallengeIds (db : DB) (t : Team) : List Nat :=
  (db.users.filter (fun u => u.team_id == some t.id)).flatMap (fun m =>
    (db.submissions.filter (fun s => s.user_id == m.id && s.is_correct)).map
      (fun s => s.challenge_id))

/-- `Team.get_score`: collect the set of challenge ids solved by any current
member, then sum each distinct challenge's configured `points` once. -/
def Team.get_score (db : DB) (t : Team) : Int :=
  ((teamSolvedChallengeIds db t).dedup.map (fun cid => challengePoints db cid)).sum

/-- `User.get_score`: the team's score when teamed, otherwise the sum of
`submission.challenge.points` over the user's correct submissions. -/
def User.get_score (db : DB) (u : User) : Int :=
  match u.team_id with
  | some tid => Team.get_score db ⟨tid⟩
  | none =>
    ((db.submissions.filter (fun s => s.user_id == u.id && s.is_correct)).map
      (fun s => challengePoints db s.challenge_id)).sum

/-- One row of the scoreboard aggregation in `app/views/main.py`. -/
structure ScoreRow where
  subject_id : Nat
  score : Int
  solve_count : Nat
  last_submission : Nat
deriving DecidableEq

/-- Individual scoreboard row: inner join of users to their correct
submissions, grouped by user (users with no correct submission produce no
group), summing `points_awarded`, with `max(created_at)` as `last_submission`. -/
def userAgg (db : DB) (u : User) : Option ScoreRow :=
  let subs := db.submissions.filter (fun s => s.user_id == u.id && s.is_correct)
  if subs.isEmpty then none
  else some { subject_id := u.id,
              score := (subs.map (fun s => s.points_awarded)).sum,
              solve_count := subs.length,
              last_submission := (subs.map (fun s => s.created_at)).foldl max 0 }

/-- Team scoreboard row: join team to current members to their correct
submissions, summing `points_awarded` (no per-challenge deduplication) and
counting distinct challenge ids. -/
def teamAgg (db : DB) (t : Team) : Option ScoreRow :=
  let members := db.users.filter (fun u => u.team_id == some t.id)
  let subs := db.submissions.filter
    (fun s => s.is_correct && members.any (fun u => u.id == s.user_id))
  if subs.isEmpty then none
  else some { subject_id := t.id,
              score := (subs.map (fun s => s.points_awarded)).sum,
              solve_count := ((subs.map (fun s => s.challenge_id)).dedup).length,
              last_submission := (subs.map (fun s => s.created_at)).foldl max 0 }

/-- Stable insertion for `ORDER BY score DESC`: a row moves ahead of another
only when its score is strictly larger, so equal scores keep group order. -/
def insertScoreDesc (x : ScoreRow) : List ScoreRow → List ScoreRow
  | [] => [x]
  | y :: ys => if y.score ≤ x.score then x :: y :: ys else y :: insertScoreDesc x ys

/-- Stable sort of scoreboard rows by score descending. -/
def sortScoreDesc : List ScoreRow → List ScoreRow
  | [] => []
  | x :: xs => insertScoreDesc x (sortScoreDesc xs)

/-- The individual scoreboard query (`view=user`): group rows, `ORDER BY score DESC`. -/
def scoreboardUsers (db : DB) : List ScoreRow :=
  sortScoreDesc (db.users.filterMap (userAgg db))

/-- The team scoreboard query (`view=team`): group rows, `ORDER BY score DESC`. -/
def scoreboardTeams (db : DB) : List ScoreRow :=
  sortScoreDesc (db.teams.filterMap (teamAgg db))

/-- The spec's individual standing: sum of `points_awarded` over the user's
correct submissions (stated for comparison with `User.get_score`). -/
def specUserScore (db : DB) (u : User) : Int :=
  ((db.submissions.filter (fun s => s.user_id == u.id && s.is_correct)).map
    (fun s => s.points_awarded)).sum

/-- The spec's team standing: sum of `points_awarded` over every qualifying
correct submission by any current member, without per-challenge deduplication
(stated for comparison with `Team.get_score`). -/
def specTeamScore (db : DB) (t : Team) : Int :=
  ((db.submissions.filter (fun s => s.is_correct &&
    (db.users.filter (fun u => u.team_id == some t.id)).any
      (fun u => u.id == s.user_id))).map (fun s => s.points_awarded)).sum

/-- The spec's rank: 1 + number of correct submissions for the same challenge
strictly earlier in the (created_at, id) lexicographic order (stated for
comparison with `Submission.get_rank`). -/
def specRank (s : Submission) (subs : List Submission) : Nat :=
  (subs.filter (fun t => t.challenge_id == s.challenge_id && t.is_correct &&
    (decide (t.created_at < s.created_at) ||
      (t.created_at == s.created_at && decide (t.id < s.id))))).length + 1

/-- The spec's leaderboard display order: score descending, ties broken by
`max(created_at)` ascending. -/
def specLeaderboardOrder (a b : ScoreRow) : Prop :=
  b.score < a.score ∨ (a.score = b.score ∧ a.last_submission ≤ b.last_submission)

instance : DecidableRel specLeaderboardOrder := fun a b =>
  inferInstanceAs (Decidable (b.score < a.score ∨
    (a.score = b.score ∧ a.last_submission ≤ b.last_submission)))

/-- Replace every submission's frozen award by 0, leaving everything else
untouched; used to show which score reads ignore `points_awarded`. -/
def zeroAwards (db : DB) : DB :=
  { db with submissions := db.submissions.map (fun s => { s with points_awarded := 0 }) }

/-- The ledger invariant: no two distinct rows are both correct for the same
(user, challenge) pair. -/
def atMostOneCorrectPerUserChallenge (subs : List Submission) : Prop :=
  subs.Pairwise (fun a b =>
    ¬(a.user_id = b.user_id ∧ a.challenge_id = b.challenge_id ∧
      a.is_correct = true ∧ b.is_correct = true))

instance (subs : List Submission) : Decidable (atMostOneCorrectPerUserChallenge subs) :=
  inferInstanceAs (Decidable (subs.Pairwise (fun (a b : Submission) =>
    ¬(a.user_id = b.user_id ∧ a.challenge_id = b.challenge_id ∧
      a.is_correct = true ∧ b.is_correct = true))))

/-! Concrete fixtures used by the counterexamples and witnesses. -/

/-- A fresh dynamic challenge worth 100 base points. -/
def dyn100 : Challenge :=
  { id := 1, flag := "secret", points := 100, max_attempts := 0,
    is_active := true, is_dynamic := true }

/-- Database with `dyn100`, two teamless users and an empty ledger. -/
def C1db : DB :=
  { challenges := [dyn100], users := [⟨1, none⟩, ⟨2, none⟩], teams := [],
    submissions := [] }

/-- A teamless user, fixture for the individual-standing counterexample. -/
def C2user : User := ⟨9, none⟩

/-- The teamless user solved `dyn100` as its second solver: the frozen award is
95 while the challenge's configured value is 100. -/
def C2db : DB :=
  { challenges := [dyn100], users := [C2user], teams := [],
    submissions := [{ id := 1, user_id := 9, challenge_id := 1,
                      submitted_flag := "secret", is_correct := true,
                      points_awarded := 95, created_at := 4 }] }

/-- Fixture team for the team-score counterexample. -/
def C3team : Team := ⟨5⟩

/-- Two current members of team 5 each hold a correct submission for the same
challenge, with frozen awards 100 and 95. -/
def C3db : DB :=
  { challenges := [dyn100], users := [⟨1, some 5⟩, ⟨2, some 5⟩], teams := [C3team],
    submissions := [{ id := 1, user_id := 1, challenge_id := 1,
                      submitted_flag := "secret", is_correct := true,
                      points_awarded := 100, created_at := 1 },
                    { id := 2, user_id := 2, challenge_id := 1,
                      submitted_flag := "secret", is_correct := true,
                      points_awarded := 95, created_at := 2 }] }

/-- A challenge with an attempt cap of one. -/
def cap1 : Challenge :=
  { id := 1, flag := "secret", points := 100, max_attempts := 1,
    is_active := true, is_dynamic := true }

/-- User 7 already holds a correct submission for `cap1` and has used up the
attempt cap. -/
def C4dbSolved : DB :=
  { challenges := [cap1], users := [⟨7, none⟩], teams := [],
    submissions := [{ id := 1, user_id := 7, challenge_id := 1,
                      submitted_flag := "secret", is_correct := true,
                      points_awarded := 95, created_at := 3 }] }

/-- User 7 has used up the attempt cap of `cap1` with a wrong submission and
has no correct one. -/
def C4dbWrong : DB :=
  { challenges := [cap1], users := [⟨7, none⟩], teams := [],
    submissions := [{ id := 1, user_id := 7, challenge_id := 1,
                      submitted_flag := "nope", is_correct := false,
                      points_awarded := 0, created_at := 3 }] }

/-- A correct submission for challenge 1, first by insertion order. -/
def C5s1 : Submission :=
  { id := 1, user_id := 1, challenge_id := 1, submitted_flag := "secret",
    is_correct := true, points_awarded := 100, created_at := 7 }

/-- A second correct submission for challenge 1 with the same timestamp as
`C5s1` but a larger id. -/
def C5s2 : Submission :=
  { id := 2, user_id := 2, challenge_id := 1, submitted_flag := "secret",
    is_correct := true, points_awarded := 95, created_at := 7 }

/-- Two correct submissions for challenge 1 with identical timestamps, id 1
inserted before id 2 (plus a correct row of another challenge). -/
def C5subs : List Submission :=
  [C5s1, C5s2,
   { id := 3, user_id := 1, challenge_id := 2, submitted_flag := "x",
     is_correct := true, points_awarded := 50, created_at := 6 }]

/-- First of two correct submissions sharing a timestamp. -/
def C6a : Submission :=
  { id := 1, user_id := 1, challenge_id := 1, submitted_flag := "secret",
    is_correct := true, points_awarded := 100, created_at := 7 }

/-- Second of two correct submissions sharing a timestamp. -/
def C6b : Submission :=
  { id := 2, user_id := 2, challenge_id := 1, submitted_flag := "secret",
    is_correct := true, points_awarded := 95, created_at := 7 }

/-- Ledger with two tied solves and one strictly later solve. -/
def C6subs : List Submission :=
  [C6a, C6b,
   { id := 3, user_id := 3, challenge_id := 1, submitted_flag := "secret",
     is_correct := true, points_awarded := 90, created_at := 9 }]

/-- Ledger state for the invariant-preservation witness: one correct row. -/
def C7db : DB :=
  { challenges := [dyn100], users := [⟨1, none⟩, ⟨2, none⟩], teams := [],
    submissions := [{ id := 1, user_id := 1, challenge_id := 1,
                      submitted_flag := "secret", is_correct := true,
                      points_awarded := 95, created_at := 3 }] }

/-- Fixture challenge for the flag-normalisation witness. -/
def C8ch : Challenge :=
  { id := 1, flag := " Secret ", points := 100, max_attempts := 0,
    is_active := true, is_dynamic := false }

/-- Two users with equal total scores; the user whose only solve is later sits
earlier in the users table. -/
def C9db : DB :=
  { challenges := [{ id := 1, flag := "f", points := 100, max_attempts := 0,
                     is_active := true, is_dynamic := false },
                   { id := 2, flag := "g", points := 100, max_attempts := 0,
                     is_active := true, is_dynamic := false }],
    users := [⟨1, none⟩, ⟨2, none⟩], teams := [],
    submissions := [{ id := 1, user_id := 1, challenge_id := 1,
                      submitted_flag := "f", is_correct := true,
                      points_awarded := 100, created_at := 10 },
                    { id := 2, user_id := 2, challenge_id := 2,
                      submitted_flag := "g", is_correct := true,
                      points_awarded := 100, created_at := 5 }] }

/-! Theorems. -/

/-- C1: evaluation of the submit flow at the failing input. On a fresh dynamic
challenge with base 100 the first correct solver is awarded 95 (not the
claimed 100) and the second 90 (not 95): the solve count used for decay
already contains the submission being scored. -/
theorem C1_dynamic_award_counts_own_solve :
    (submit_flag C1db 1 1 "secret" 5 1).1 = SubmitResult.correct 95 true ∧
    (submit_flag (submit_flag C1db 1 1 "secret" 5 1).2 2 1 "secret" 6 2).1 =
      SubmitResult.correct 90 false := by
  exact ⟨rfl, rfl⟩

/-- C2 counterexample: a teamless user whose only correct submission froze 95
points for a challenge currently worth 100 is scored 100 by `User.get_score`,
not the claimed sum of `points_awarded`. -/
theorem C2_counterexample_score_uses_challenge_points :
    C2user.team_id = none ∧
    User.get_score C2db C2user = 100 ∧
    specUserScore C2db C2user = 95 ∧
    User.get_score C2db C2user ≠ specUserScore C2db C2user := by
  decide

/-- C3 counterexample: two current members of the same team each hold a correct
submission for the same challenge (frozen awards 100 and 95), yet
`Team.get_score` returns the challenge's configured 100 once, not the claimed
undeduplicated sum 195. -/
theorem C3_counterexample_team_score_deduplicates :
    (C3db.users.filter (fun u => u.team_id == some C3team.id)).length = 2 ∧
    Team.get_score C3db C3team = 100 ∧
    specTeamScore C3db C3team = 195 ∧
    Team.get_score C3db C3team ≠ specTeamScore C3db C3team := by
  decide

/-- C4 counterexample: user 7 has both a correct submission for the challenge
and `max_attempts = 1 ≤ 1` prior submissions, yet submitting again yields
`AlreadySolved`, not the claimed `AttemptLimitExceeded`. -/
theorem C4_counterexample_solved_checked_before_cap :
    findChallenge C4dbSolved 1 = some cap1 ∧
    cap1.is_active = true ∧
    0 < cap1.max_attempts ∧
    cap1.max_attempts ≤ (get_user_submissions C4dbSolved.submissions 7 1).length ∧
    cap1.is_solved_by_user C4dbSolved.submissions 7 = true ∧
    (submit_flag C4dbSolved 7 1 "zzz" 9 2).1 = SubmitResult.alreadySolved := by
  decide

/-- C6 counterexample: two distinct correct submissions for the same challenge
with identical timestamps both get rank 1 from `Submission.get_rank`, while the
claimed (timestamp, id) ordering would give the second rank 2. -/
theorem C6_counterexample_equal_timestamps_share_rank :
    C6a ≠ C6b ∧
    C6a.challenge_id = C6b.challenge_id ∧
    C6a.is_correct = true ∧ C6b.is_correct = true ∧
    C6a.created_at = C6b.created_at ∧
    C6a ∈ C6subs ∧ C6b ∈ C6subs ∧
    Submission.get_rank C6a C6subs = some 1 ∧
    Submission.get_rank C6b C6subs = some 1 ∧
    specRank C6b C6subs = 2 := by
  decide

/-- C9 counterexample: two users tie at 100 points; the claimed ordering puts
the earlier `max(created_at)` (user 2, at 5) first, but the scoreboard keeps
group order and lists user 1 (at 10) first: the output violates the claimed
(score desc, last-solve asc) ordering. -/
theorem C9_counterexample_no_timestamp_tiebreak :
    (scoreboardUsers C9db).map (fun r => (r.subject_id, r.score, r.last_submission)) =
      [(1, 100, 10), (2, 100, 5)] ∧
    ¬ (scoreboardUsers C9db).Pairwise specLeaderboardOrder := by
  decide

/-- C10: the solve-rate query is total and bounded: with no attempts it
returns 0, and in every case the result lies between 0 and 100. -/
theorem C10_solve_rate_total_and_bounded (c : Challenge) (subs : List Submission) :
    (c.get_attempt_count subs = 0 → c.get_solve_rate subs = 0) ∧
    0 ≤ c.get_solve_rate subs ∧ c.get_solve_rate subs ≤ 100 := by
  refine ⟨fun h => by simp [Challenge.get_solve_rate, h], ?_, ?_⟩ <;>
    · unfold Challenge.get_solve_rate
      by_cases h : c.get_attempt_count subs = 0
      · simp [h]
      · have hle : c.get_solve_count subs ≤ c.get_attempt_count subs :=
          List.length_filter_le _ _
        have ht : (0 : ℚ) < (c.get_attempt_count subs : ℚ) := by
          exact_mod_cast Nat.pos_of_ne_zero h
        have hdiv : (c.get_solve_count subs : ℚ) / (c.get_attempt_count subs : ℚ) ≤ 1 := by
          rw [div_le_one ht]
          exact_mod_cast hle
        have hdiv0 : (0 : ℚ) ≤ (c.get_solve_count subs : ℚ) / (c.get_attempt_count subs : ℚ) :=
          div_nonneg (by positivity) (le_of_lt ht)
        simp only [h, if_false]
        first
        | positivity
        | calc (c.get_solve_count subs : ℚ) / (c.get_attempt_count subs : ℚ) * 100
              ≤ 1 * 100 := by
                exact mul_le_mul_of_nonneg_right hdiv (by norm_num)
            _ = 100 := by norm_num

/-- Branch equation: head matches and the tail holds no solve. -/
theorem firstSolve_cons_pos_none {cid : Nat} {s : Submission} {rest : List Submission}
    (hs : s.challenge_id = cid ∧ s.is_correct = true)
    (hr : firstSolve cid rest = none) :
    firstSolve cid (s :: rest) = some s := by
  simp [firstSolve, if_pos hs, hr]

/-- Branch equation: head matches and the tail's solve is strictly earlier. -/
theorem firstSolve_cons_pos_some_lt {cid : Nat} {s b : Submission}
    {rest : List Submission}
    (hs : s.challenge_id = cid ∧ s.is_correct = true)
    (hr : firstSolve cid rest = some b) (hlt : b.created_at < s.created_at) :
    firstSolve cid (s :: rest) = some b := by
  simp [firstSolve, if_pos hs, hr, if_pos hlt]

/-- Branch equation: head matches and is no later than the tail's solve (the
scan keeps the earlier-inserted row on a timestamp tie). -/
theorem firstSolve_cons_pos_some_ge {cid : Nat} {s b : Submission}
    {rest : List Submission}
    (hs : s.challenge_id = cid ∧ s.is_correct = true)
    (hr : firstSolve cid rest = some b) (hge : ¬b.created_at < s.created_at) :
    firstSolve cid (s :: rest) = some s := by
  simp [firstSolve, if_pos hs, hr, if_neg hge]

/-- Branch equation: head is not a correct submission of the challenge. -/
theorem firstSolve_cons_neg {cid : Nat} {s : Submission} {rest : List Submission}
    (hs : ¬(s.challenge_id = cid ∧ s.is_correct = true)) :
    firstSolve cid (s :: rest) = firstSolve cid rest := by
  simp [firstSolve, if_neg hs]

/-- Soundness of `firstSolve`: the returned row is a correct submission of the
queried challenge and belongs to the ledger. -/
theorem firstSolve_sound {cid : Nat} {subs : List Submission} {f : Submission}
    (h : firstSolve cid subs = some f) :
    f ∈ subs ∧ f.challenge_id = cid ∧ f.is_correct = true := by
  induction subs generalizing f with
  | nil => simp [firstSolve] at h
  | cons s rest ih =>
    by_cases hs : s.challenge_id = cid ∧ s.is_correct = true
    · rcases hfr : firstSolve cid rest with _ | b
      · rw [firstSolve_cons_pos_none hs hfr] at h
        cases h
        exact ⟨List.mem_cons_self _ _, hs⟩
      · by_cases hlt : b.created_at < s.created_at
        · rw [firstSolve_cons_pos_some_lt hs hfr hlt] at h
          cases h
          obtain ⟨h1, h2, h3⟩ := ih hfr
          exact ⟨List.mem_cons_of_mem _ h1, h2, h3⟩
        · rw [firstSolve_cons_pos_some_ge hs hfr hlt] at h
          cases h
          exact ⟨List.mem_cons_self _ _, hs⟩
    · rw [firstSolve_cons_neg hs] at h
      obtain ⟨h1, h2, h3⟩ := ih h
      exact ⟨List.mem_cons_of_mem _ h1, h2, h3⟩

/-- Completeness of `firstSolve`: a correct submission for the challenge in the
ledger forces a result. -/
theorem firstSolve_isSome {cid : Nat} {subs : List Submission} {s : Submission}
    (hmem : s ∈ subs) (hcid : s.challenge_id = cid) (hcor : s.is_correct = true) :
    ∃ f, firstSolve cid subs = some f := by
  induction subs with
  | nil => cases hmem
  | cons t rest ih =>
    by_cases ht : t.challenge_id = cid ∧ t.is_correct = true
    · rcases hfr : firstSolve cid rest with _ | b
      · exact ⟨t, firstSolve_cons_pos_none ht hfr⟩
      · by_cases hlt : b.created_at < t.created_at
        · exact ⟨b, firstSolve_cons_pos_some_lt ht hfr hlt⟩
        · exact ⟨t, firstSolve_cons_pos_some_ge ht hfr hlt⟩
    · rw [firstSolve_cons_neg ht]
      rcases List.mem_cons.mp hmem with rfl | hmem'
      · exact absurd ⟨hcid, hcor⟩ ht
      · exact ih hmem'

/-- The result of `firstSolve` carries the minimal timestamp among the correct
submissions of the challenge. -/
theorem firstSolve_min {cid : Nat} {subs : List Submission} {f : Submission}
    (h : firstSolve cid subs = some f) :
    ∀ t ∈ subs, t.challenge_id = cid → t.is_correct = true →
      f.created_at ≤ t.created_at := by
  induction subs generalizing f with
  | nil => simp [firstSolve] at h
  | cons s rest ih =>
    intro t hmem htc htcor
    by_cases hs : s.challenge_id = cid ∧ s.is_correct = true
    · rcases hfr : firstSolve cid rest with _ | b
      · rw [firstSolve_cons_pos_none hs hfr] at h
        cases h
        rcases List.mem_cons.mp hmem with rfl | hmem'
        · exact le_refl _
        · obtain ⟨f', hf'⟩ := firstSolve_isSome hmem' htc htcor
          rw [hfr] at hf'
          cases hf'
      · by_cases hlt : b.created_at < s.created_at
        · rw [firstSolve_cons_pos_some_lt hs hfr hlt] at h
          cases h
          rcases List.mem_cons.mp hmem with rfl | hmem'
          · exact le_of_lt hlt
          · exact ih hfr t hmem' htc htcor
        · rw [firstSolve_cons_pos_some_ge hs hfr hlt] at h
          cases h
          rcases List.mem_cons.mp hmem with rfl | hmem'
          · exact le_refl _
          · exact le_trans (Nat.le_of_not_lt hlt) (ih hfr t hmem' htc htcor)
    · rw [firstSolve_cons_neg hs] at h
      rcases List.mem_cons.mp hmem with rfl | hmem'
      · exact absurd ⟨htc, htcor⟩ hs
      · exact ih h t hmem' htc htcor

/-- On a ledger whose ids are strictly increasing, equal ids force equal rows. -/
theorem pairwise_id_mem_inj {subs : List Submission}
    (hsort : subs.Pairwise (fun a b => a.id < b.id))
    {x y : Submission} (hx : x ∈ subs) (hy : y ∈ subs) (hid : x.id = y.id) :
    x = y := by
  induction subs with
  | nil => cases hx
  | cons s rest ih =>
    obtain ⟨hs_all, hsort'⟩ := List.pairwise_cons.mp hsort
    rcases List.mem_cons.mp hx with rfl | hx'
    · rcases List.mem_cons.mp hy with rfl | hy'
      · rfl
      · exact absurd hid (Nat.ne_of_lt (hs_all y hy'))
    · rcases List.mem_cons.mp hy with rfl | hy'
      · exact absurd hid.symm (Nat.ne_of_lt (hs_all x hx'))
      · exact ih hsort' hx' hy'

/-- The deterministic model `firstSolve` returns one admissible result of the
underdetermined query. -/
theorem firstSolve_admissible {cid : Nat} {subs : List Submission} {f : Submission}
    (h : firstSolve cid subs = some f) : IsFirstSolveResult cid subs f := by
  obtain ⟨h1, h2, h3⟩ := firstSolve_sound h
  exact ⟨h1, h2, h3, firstSolve_min h⟩

/-- C5 counterexample: with two correct submissions for the same challenge at
identical timestamps, both rows are admissible results of the tie-free
first-solve query, and whichever of them the engine returns is the one
reported as first blood: the claimed id-ascending tiebreak, uniqueness and
determinism under tied timestamps are not guaranteed by the program. -/
theorem C5_counterexample_tie_undetermined :
    C5s1 ≠ C5s2 ∧ C5s1.created_at = C5s2.created_at ∧ C5s1.id < C5s2.id ∧
    IsFirstSolveResult 1 C5subs C5s1 ∧ IsFirstSolveResult 1 C5subs C5s2 ∧
    is_first_blood_given C5s1 (some C5s1) = true ∧
    is_first_blood_given C5s2 (some C5s2) = true := by
  decide

/-- C5 amended: the first-blood query returns some correct submission of the
challenge with minimal timestamp; any two admissible results carry that same
minimal timestamp, and when no two correct submissions of the challenge share
a timestamp the result is unique. Relative to one returned row, on a ledger
with strictly increasing ids, exactly that row among the challenge's correct
submissions is reported as first blood; under a timestamp tie the returned
row itself is not determined. -/
theorem C5_first_blood_query_contract (subs : List Submission) (cid : Nat)
    (s : Submission) (hmem : s ∈ subs) (hcid : s.challenge_id = cid)
    (hcor : s.is_correct = true) :
    (∃ f, IsFirstSolveResult cid subs f) ∧
    (∀ f₁ f₂, IsFirstSolveResult cid subs f₁ → IsFirstSolveResult cid subs f₂ →
      f₁.created_at = f₂.created_at) ∧
    (∀ f₁ f₂, IsFirstSolveResult cid subs f₁ → IsFirstSolveResult cid subs f₂ →
      (∀ a ∈ subs, ∀ b ∈ subs, a.challenge_id = cid → b.challenge_id = cid →
        a.is_correct = true → b.is_correct = true →
        a.created_at = b.created_at → a = b) →
      f₁ = f₂) ∧
    (∀ f, IsFirstSolveResult cid subs f →
      subs.Pairwise (fun a b => a.id < b.id) →
      ∀ t ∈ subs, t.challenge_id = cid → t.is_correct = true →
        (is_first_blood_given t (some f) = true ↔ t = f)) := by
  refine ⟨?_, ?_, ?_, ?_⟩
  · obtain ⟨f, hf⟩ := firstSolve_isSome hmem hcid hcor
    exact ⟨f, firstSolve_admissible hf⟩
  · rintro f₁ f₂ ⟨hm1, hc1, hr1, hmin1⟩ ⟨hm2, hc2, hr2, hmin2⟩
    exact le_antisymm (hmin1 f₂ hm2 hc2 hr2) (hmin2 f₁ hm1 hc1 hr1)
  · rintro f₁ f₂ ⟨hm1, hc1, hr1, hmin1⟩ ⟨hm2, hc2, hr2, hmin2⟩ hinj
    exact hinj f₁ hm1 f₂ hm2 hc1 hc2 hr1 hr2
      (le_antisymm (hmin1 f₂ hm2 hc2 hr2) (hmin2 f₁ hm1 hc1 hr1))
  · rintro f ⟨hfm, hfc, hfr, hfmin⟩ hsort t htm htc htcor
    constructor
    · intro hflag
      have hid : f.id = t.id := by
        simpa [is_first_blood_given, htcor] using hflag
      exact pairwise_id_mem_inj hsort htm hfm hid.symm
    · intro hEq
      subst hEq
      simp [is_first_blood_given, htcor]

/-- C5 amended witness: the query contract instantiated on the tied ledger. -/
theorem C5_query_contract_witness :
    (C5s1 ∈ C5subs ∧ C5s1.challenge_id = 1 ∧ C5s1.is_correct = true) ∧
    ((∃ f, IsFirstSolveResult 1 C5subs f) ∧
     (∀ f₁ f₂, IsFirstSolveResult 1 C5subs f₁ → IsFirstSolveResult 1 C5subs f₂ →
       f₁.created_at = f₂.created_at) ∧
     (∀ f₁ f₂, IsFirstSolveResult 1 C5subs f₁ → IsFirstSolveResult 1 C5subs f₂ →
       (∀ a ∈ C5subs, ∀ b ∈ C5subs, a.challenge_id = 1 → b.challenge_id = 1 →
         a.is_correct = true → b.is_correct = true →
         a.created_at = b.created_at → a = b) →
       f₁ = f₂) ∧
     (∀ f, IsFirstSolveResult 1 C5subs f →
       C5subs.Pairwise (fun a b => a.id < b.id) →
       ∀ t ∈ C5subs, t.challenge_id = 1 → t.is_correct = true →
         (is_first_blood_given t (some f) = true ↔ t = f))) :=
  ⟨by decide,
   C5_first_blood_query_contract C5subs 1 C5s1 (by decide) (by decide) (by decide)⟩

/-- Counting with a strictly weaker predicate that some list element separates
is strictly monotone. -/
theorem countP_lt_of_mem_of_imp {α : Type} {l : List α} {p q : α → Bool} {a : α}
    (ha : a ∈ l) (hqa : q a = true) (hpa : p a = false)
    (himp : ∀ x ∈ l, p x = true → q x = true) :
    l.countP p < l.countP q := by
  induction l with
  | nil => cases ha
  | cons x xs ih =>
    rw [List.countP_cons, List.countP_cons]
    rcases List.mem_cons.mp ha with rfl | hmem
    · have hle : xs.countP p ≤ xs.countP q :=
        List.countP_mono_left (fun y hy => himp y (List.mem_cons_of_mem _ hy))
      simp [hpa, hqa]
      omega
    · have hx : p x = true → q x = true := himp x (List.mem_cons_self _ _)
      have hlt := ih hmem (fun y hy => himp y (List.mem_cons_of_mem _ hy))
      by_cases hpx : p x = true
      · simp [hpx, hx hpx]
        omega
      · have hpx' : p x = false := by
          exact Bool.not_eq_true _ ▸ eq_false_of_ne_true hpx
        by_cases hqx : q x = true
        · simp [hpx', hqx]
          omega
        · have hqx' : q x = false := eq_false_of_ne_true hqx
          simp [hpx', hqx']
          omega

/-- C6 amended: ranks are computed from timestamps only: two correct
submissions for the same challenge with equal timestamps receive the same
rank, and a strictly earlier timestamp gives a strictly smaller rank. -/
theorem C6_rank_ignores_ids (subs : List Submission) (a b : Submission)
    (ha : a ∈ subs) (hb : b ∈ subs) (hcid : a.challenge_id = b.challenge_id)
    (hac : a.is_correct = true) (hbc : b.is_correct = true) :
    (a.created_at = b.created_at → a.get_rank subs = b.get_rank subs) ∧
    (a.created_at < b.created_at →
      ∃ ra rb, a.get_rank subs = some ra ∧ b.get_rank subs = some rb ∧ ra < rb) := by
  constructor
  · intro hts
    simp only [Submission.get_rank, hac, Bool.not_true, Bool.false_eq_true,
      if_false, hbc]
    rw [hcid, hts]
  · intro hlt
    simp only [Submission.get_rank, hac, Bool.not_true, Bool.false_eq_true,
      if_false, hbc]
    refine ⟨_, _, rfl, rfl, ?_⟩
    have hcount := countP_lt_of_mem_of_imp (l := subs)
      (p := fun t => t.challenge_id == a.challenge_id && t.is_correct &&
        decide (t.created_at < a.created_at))
      (q := fun t => t.challenge_id == b.challenge_id && t.is_correct &&
        decide (t.created_at < b.created_at))
      (a := a) ha
      (by simp [hcid, hac, hlt])
      (by simp)
      (by
        intro x hx hpx
        simp only [Bool.and_eq_true, beq_iff_eq, decide_eq_true_eq] at hpx ⊢
        exact ⟨⟨hcid ▸ hpx.1.1, hpx.1.2⟩, lt_trans hpx.2 hlt⟩)
    have h1 := List.countP_eq_length_filter
      (fun t : Submission => t.challenge_id == a.challenge_id && t.is_correct &&
        decide (t.created_at < a.created_at)) subs
    have h2 := List.countP_eq_length_filter
      (fun t : Submission => t.challenge_id == b.challenge_id && t.is_correct &&
        decide (t.created_at < b.created_at)) subs
    omega

/-- C6 amended witness: the two tied submissions of the counterexample ledger
receive equal ranks. -/
theorem C6_rank_ties_witness :
    (C6a ∈ C6subs ∧ C6b ∈ C6subs ∧ C6a.challenge_id = C6b.challenge_id ∧
      C6a.is_correct = true ∧ C6b.is_correct = true ∧
      C6a.created_at = C6b.created_at) ∧
    C6a.get_rank C6subs = C6b.get_rank C6subs :=
  ⟨by decide,
   (C6_rank_ignores_ids C6subs C6a C6b (by decide) (by decide) (by decide)
      (by decide) (by decide)).1 (by decide)⟩

/-- The challenge returned by `findChallenge` bears the requested id. -/
theorem findChallenge_id {db : DB} {cid : Nat} {c : Challenge}
    (h : findChallenge db cid = some c) : c.id = cid := by
  have := List.find?_some h
  simpa using this

/-- `check_and_update_correctness` only writes the correctness flag and the
award; identity, owner, challenge and timestamp are untouched. -/
theorem check_and_update_fields (s : Submission) (c : Challenge)
    (subs : List Submission) :
    (check_and_update_correctness s c subs).user_id = s.user_id ∧
    (check_and_update_correctness s c subs).challenge_id = s.challenge_id ∧
    (check_and_update_correctness s c subs).id = s.id ∧
    (check_and_update_correctness s c subs).created_at = s.created_at := by
  unfold check_and_update_correctness
  split <;> simp

/-- The committed database extends the ledger by exactly the checked row. -/
theorem submitOutcome_snd (db : DB) (s : Submission) :
    (submitOutcome db s).2 = { db with submissions := db.submissions ++ [s] } := by
  unfold submitOutcome
  by_cases h : s.is_correct = true <;> simp [h]

/-- Branch equation: unknown challenge id. -/
theorem submit_flag_not_found {db : DB} {uid cid : Nat} {raw : String}
    {now nid : Nat} (hfc : findChallenge db cid = none) :
    submit_flag db uid cid raw now nid = (.challengeUnavailable, db) := by
  simp only [submit_flag, hfc]

/-- Branch equation: inactive challenge. -/
theorem submit_flag_inactive {db : DB} {uid cid : Nat} {raw : String}
    {now nid : Nat} {c : Challenge} (hfc : findChallenge db cid = some c)
    (hact : ¬c.is_active = true) :
    submit_flag db uid cid raw now nid = (.challengeUnavailable, db) := by
  simp only [submit_flag, hfc]
  rw [if_pos hact]

/-- Branch equation: the user already solved the challenge. -/
theorem submit_flag_solved {db : DB} {uid cid : Nat} {raw : String}
    {now nid : Nat} {c : Challenge} (hfc : findChallenge db cid = some c)
    (hact : c.is_active = true)
    (hsol : c.is_solved_by_user db.submissions uid = true) :
    submit_flag db uid cid raw now nid = (.alreadySolved, db) := by
  simp only [submit_flag, hfc]
  rw [if_neg (not_not_intro hact), if_pos hsol]

/-- Branch equation: empty flag after stripping. -/
theorem submit_flag_empty {db : DB} {uid cid : Nat} {raw : String}
    {now nid : Nat} {c : Challenge} (hfc : findChallenge db cid = some c)
    (hact : c.is_active = true)
    (hsol : ¬c.is_solved_by_user db.submissions uid = true)
    (hemp : pyStrip raw = "") :
    submit_flag db uid cid raw now nid = (.emptyFlag, db) := by
  simp only [submit_flag, hfc]
  rw [if_neg (not_not_intro hact), if_neg hsol, if_pos hemp]

/-- Branch equation: attempt cap reached. -/
theorem submit_flag_capped {db : DB} {uid cid : Nat} {raw : String}
    {now nid : Nat} {c : Challenge} (hfc : findChallenge db cid = some c)
    (hact : c.is_active = true)
    (hsol : ¬c.is_solved_by_user db.submissions uid = true)
    (hemp : ¬pyStrip raw = "")
    (hcap : 0 < c.max_attempts ∧
      c.max_attempts ≤ (get_user_submissions db.submissions uid cid).length) :
    submit_flag db uid cid raw now nid = (.attemptLimitExceeded, db) := by
  simp only [submit_flag, hfc]
  rw [if_neg (not_not_intro hact), if_neg hsol, if_neg hemp, if_pos hcap]

/-- Branch equation: all preconditions pass and the checked row is committed. -/
theorem submit_flag_commits {db : DB} {uid cid : Nat} {raw : String}
    {now nid : Nat} {c : Challenge} (hfc : findChallenge db cid = some c)
    (hact : c.is_active = true)
    (hsol : ¬c.is_solved_by_user db.submissions uid = true)
    (hemp : ¬pyStrip raw = "")
    (hcap : ¬(0 < c.max_attempts ∧
      c.max_attempts ≤ (get_user_submissions db.submissions uid cid).length)) :
    submit_flag db uid cid raw now nid =
      submitOutcome db (check_and_update_correctness
        (newSubmission nid uid cid (pyStrip raw) now) c db.submissions) := by
  simp only [submit_flag, hfc]
  rw [if_neg (not_not_intro hact), if_neg hsol, if_neg hemp, if_neg hcap]

/-- C7: the at-most-one-correct-submission-per-(user, challenge) invariant is
preserved by every submit, and an attempt by a user who already holds a
correct submission returns `AlreadySolved` with the database unchanged. -/
theorem C7_at_most_one_correct_preserved (db : DB) (uid cid : Nat) (raw : String)
    (now nid : Nat) (hinv : atMostOneCorrectPerUserChallenge db.submissions) :
    atMostOneCorrectPerUserChallenge
      (submit_flag db uid cid raw now nid).2.submissions ∧
    (∀ c, findChallenge db cid = some c → c.is_active = true →
      c.is_solved_by_user db.submissions uid = true →
      submit_flag db uid cid raw now nid = (.alreadySolved, db)) := by
  constructor
  · rcases hfc : findChallenge db cid with _ | c
    · rw [submit_flag_not_found hfc]
      exact hinv
    · by_cases hact : c.is_active = true
      · by_cases hsol : c.is_solved_by_user db.submissions uid = true
        · rw [submit_flag_solved hfc hact hsol]
          exact hinv
        · by_cases hemp : pyStrip raw = ""
          · rw [submit_flag_empty hfc hact hsol hemp]
            exact hinv
          · by_cases hcap : 0 < c.max_attempts ∧
                c.max_attempts ≤ (get_user_submissions db.submissions uid cid).length
            · rw [submit_flag_capped hfc hact hsol hemp hcap]
              exact hinv
            · rw [submit_flag_commits hfc hact hsol hemp hcap, submitOutcome_snd]
              unfold atMostOneCorrectPerUserChallenge at hinv ⊢
              rw [List.pairwise_append]
              refine ⟨hinv, List.pairwise_singleton _ _, ?_⟩
              intro a ha b hb
              have hb' : b = check_and_update_correctness
                  (newSubmission nid uid cid (pyStrip raw) now) c db.submissions :=
                List.mem_singleton.mp hb
              obtain ⟨hu, hc2, _, _⟩ := check_and_update_fields
                (newSubmission nid uid cid (pyStrip raw) now) c db.submissions
              rintro ⟨h1, h2, h3, h4⟩
              apply hsol
              unfold Challenge.is_solved_by_user
              rw [List.any_eq_true]
              refine ⟨a, ?_, ?_⟩
              · unfold challengeSubs
                rw [List.mem_filter]
                refine ⟨ha, ?_⟩
                have : a.challenge_id = cid := by
                  rw [h2, hb', hc2]
                  rfl
                simp [this, findChallenge_id hfc]
              · have : a.user_id = uid := by
                  rw [h1, hb', hu]
                  rfl
                simp [this, h3]
      · rw [submit_flag_inactive hfc hact]
        exact hinv
  · intro c hfc hact hsol
    exact submit_flag_solved hfc hact hsol

/-- C7 witness: a ledger holding one correct row keeps the invariant through a
further submit, and the solver's repeat attempt is rejected unchanged. -/
theorem C7_invariant_witness :
    atMostOneCorrectPerUserChallenge C7db.submissions ∧
    (atMostOneCorrectPerUserChallenge
      (submit_flag C7db 1 1 "secret" 9 2).2.submissions ∧
     (∀ c, findChallenge C7db 1 = some c → c.is_active = true →
       c.is_solved_by_user C7db.submissions 1 = true →
       submit_flag C7db 1 1 "secret" 9 2 = (.alreadySolved, C7db))) :=
  ⟨by decide, C7_at_most_one_correct_preserved C7db 1 1 "secret" 9 2 (by decide)⟩

/-- C4 amended: after the existence/activity check the submit view checks
already-solved first, then flag non-emptiness, then the attempt cap; a user
holding a correct submission is answered `AlreadySolved` even when the attempt
cap is also exhausted, and the cap answer arises only for not-yet-solved
users. -/
theorem C4_solved_precedes_attempt_cap (db : DB) (uid cid : Nat) (raw : String)
    (now nid : Nat) (c : Challenge)
    (hfc : findChallenge db cid = some c) (hact : c.is_active = true) :
    (c.is_solved_by_user db.submissions uid = true →
      submit_flag db uid cid raw now nid = (.alreadySolved, db)) ∧
    (c.is_solved_by_user db.submissions uid = false →
      pyStrip raw ≠ "" →
      0 < c.max_attempts →
      c.max_attempts ≤ (get_user_submissions db.submissions uid cid).length →
      submit_flag db uid cid raw now nid = (.attemptLimitExceeded, db)) := by
  constructor
  · exact submit_flag_solved hfc hact
  · intro hsol hemp h1 h2
    exact submit_flag_capped hfc hact (by simp [hsol]) hemp ⟨h1, h2⟩

/-- C4 amended witness: the solved-and-capped user gets `AlreadySolved`; the
merely capped user gets `AttemptLimitExceeded`. -/
theorem C4_order_witness :
    submit_flag C4dbSolved 7 1 "zzz" 9 2 = (.alreadySolved, C4dbSolved) ∧
    submit_flag C4dbWrong 7 1 "zzz" 9 2 = (.attemptLimitExceeded, C4dbWrong) :=
  ⟨(C4_solved_precedes_attempt_cap C4dbSolved 7 1 "zzz" 9 2 cap1
      (by decide) (by decide)).1 (by decide),
   (C4_solved_precedes_attempt_cap C4dbWrong 7 1 "zzz" 9 2 cap1
      (by decide) (by decide)).2 (by decide) (by decide) (by decide) (by decide)⟩

/-- Zeroing every frozen award does not move a teamless user's filtered,
challenge-points-valued sum. -/
theorem sum_challenge_points_zero_awards (db : DB) (u : User)
    (l : List Submission) :
    (((l.map (fun s => { s with points_awarded := 0 })).filter
        (fun s => s.user_id == u.id && s.is_correct)).map
      (fun s => challengePoints db s.challenge_id)).sum =
    ((l.filter (fun s => s.user_id == u.id && s.is_correct)).map
      (fun s => challengePoints db s.challenge_id)).sum := by
  induction l with
  | nil => rfl
  | cons x xs ih =>
    simp only [List.map_cons, List.filter_cons]
    by_cases hx : (x.user_id == u.id && x.is_correct) = true
    · simp only [hx, if_pos, List.map_cons, List.sum_cons, ih]
    · have hgx : ¬(({ x with points_awarded := 0 } : Submission).user_id == u.id &&
          ({ x with points_awarded := 0 } : Submission).is_correct) = true := hx
      rw [if_neg hgx, if_neg hx]
      exact ih

/-- C2 amended: a teamless user's standing sums the challenge's current
configured `points` over the user's correct submissions; the frozen
`points_awarded` values never enter it (zeroing them all changes nothing). -/
theorem C2_teamless_score_from_challenge_points (db : DB) (u : User)
    (hteam : u.team_id = none) :
    User.get_score db u =
      ((db.submissions.filter (fun s => s.user_id == u.id && s.is_correct)).map
        (fun s => challengePoints db s.challenge_id)).sum ∧
    User.get_score (zeroAwards db) u = User.get_score db u := by
  constructor
  · simp [User.get_score, hteam]
  · simp only [User.get_score, hteam]
    exact sum_challenge_points_zero_awards db u db.submissions

/-- C2 amended witness: zeroing the 95-point frozen award leaves the
counterexample user's score at the challenge's configured 100. -/
theorem C2_score_witness :
    C2user.team_id = none ∧
    (User.get_score C2db C2user =
      ((C2db.submissions.filter
          (fun s => s.user_id == C2user.id && s.is_correct)).map
        (fun s => challengePoints C2db s.challenge_id)).sum ∧
     User.get_score (zeroAwards C2db) C2user = User.get_score C2db C2user) :=
  ⟨by decide, C2_teamless_score_from_challenge_points C2db C2user (by decide)⟩

/-- The team score is the sum of configured challenge points over the SET of
solved challenge ids (order- and multiplicity-free form). -/
theorem team_score_eq_sum_toFinset (db : DB) (t : Team) :
    Team.get_score db t =
      ((teamSolvedChallengeIds db t).toFinset).sum
        (fun x => challengePoints db x) := by
  rw [Team.get_score]
  have h1 : (teamSolvedChallengeIds db t).toFinset =
      (teamSolvedChallengeIds db t).dedup.toFinset := by
    ext a
    simp [List.mem_dedup]
  rw [h1, List.sum_toFinset _ (List.nodup_dedup _)]

/-- Unfolded membership in the collected solved-challenge ids of a team. -/
theorem mem_teamSolvedChallengeIds {db : DB} {t : Team} {a : Nat} :
    a ∈ teamSolvedChallengeIds db t ↔
      ∃ m, m ∈ db.users ∧ m.team_id = some t.id ∧ ∃ x, x ∈ db.submissions ∧
        x.user_id = m.id ∧ x.is_correct = true ∧ x.challenge_id = a := by
  unfold teamSolvedChallengeIds
  constructor
  · intro h
    simp only [List.mem_flatMap, List.mem_map, List.mem_filter,
      Bool.and_eq_true, beq_iff_eq] at h
    obtain ⟨m, ⟨hm, hmt⟩, x, ⟨hx, hxu, hxc⟩, hcid⟩ := h
    exact ⟨m, hm, hmt, x, hx, hxu, hxc, hcid⟩
  · rintro ⟨m, hm, hmt, x, hx, hxu, hxc, hcid⟩
    simp only [List.mem_flatMap, List.mem_map, List.mem_filter,
      Bool.and_eq_true, beq_iff_eq]
    exact ⟨m, ⟨hm, hmt⟩, x, ⟨hx, hxu, hxc⟩, hcid⟩

/-- C3 amended: the team's numeric score counts each distinct solved challenge
once — it is the sum of configured points over the set of solved challenge
ids, and appending any further submission for a challenge the team has already
solved leaves the score unchanged. -/
theorem C3_team_score_counts_each_challenge_once (db : DB) (t : Team)
    (s : Submission)
    (hsolved : s.challenge_id ∈ teamSolvedChallengeIds db t) :
    Team.get_score db t =
      ((teamSolvedChallengeIds db t).toFinset).sum
        (fun x => challengePoints db x) ∧
    Team.get_score { db with submissions := db.submissions ++ [s] } t =
      Team.get_score db t := by
  refine ⟨team_score_eq_sum_toFinset db t, ?_⟩
  rw [team_score_eq_sum_toFinset, team_score_eq_sum_toFinset]
  have hpts : (fun x => challengePoints
      { db with submissions := db.submissions ++ [s] } x) =
      (fun x => challengePoints db x) := rfl
  rw [hpts]
  congr 1
  ext a
  simp only [List.mem_toFinset]
  rw [mem_teamSolvedChallengeIds, mem_teamSolvedChallengeIds]
  constructor
  · rintro ⟨m, hm, hmt, x, hx, hxu, hxc, hcid⟩
    have hx2 : x ∈ db.submissions ++ [s] := hx
    rcases List.mem_append.mp hx2 with hx' | hx'
    · exact ⟨m, hm, hmt, x, hx', hxu, hxc, hcid⟩
    · have hxs := List.mem_singleton.mp hx'
      subst hxs
      rw [← hcid]
      exact mem_teamSolvedChallengeIds.mp hsolved
  · rintro ⟨m, hm, hmt, x, hx, hxu, hxc, hcid⟩
    exact ⟨m, hm, hmt, x, List.mem_append_left _ hx, hxu, hxc, hcid⟩

/-- C3 amended witness: a third correct submission by member 2 for the already
solved challenge 1 leaves the team score of the counterexample database at
100. -/
theorem C3_dedup_witness :
    (1 : Nat) ∈ teamSolvedChallengeIds C3db C3team ∧
    (Team.get_score C3db C3team =
      ((teamSolvedChallengeIds C3db C3team).toFinset).sum
        (fun x => challengePoints C3db x) ∧
     Team.get_score { C3db with submissions := C3db.submissions ++
        [{ id := 3, user_id := 2, challenge_id := 1, submitted_flag := "secret",
           is_correct := true, points_awarded := 90, created_at := 6 }] } C3team =
      Team.get_score C3db C3team) :=
  ⟨by decide,
   C3_team_score_counts_each_challenge_once C3db C3team
     { id := 3, user_id := 2, challenge_id := 1, submitted_flag := "secret",
       is_correct := true, points_awarded := 90, created_at := 6 }
     (by decide)⟩

/-- Packing a small code point keeps its value. -/
theorem toNat_ofNat_of_valid {n : Nat} (h : n.isValidChar) :
    (Char.ofNat n).toNat = n := by
  simp [Char.ofNat, dif_pos h, Char.ofNatAux, Char.toNat, UInt32.toNat]

/-- Lower-casing an ASCII capital lands on a valid code point. -/
theorem valid_add32 {c : Char} (h : 65 ≤ c.toNat ∧ c.toNat ≤ 90) :
    (c.toNat + 32).isValidChar := by
  unfold Nat.isValidChar
  left
  omega

/-- Lower-casing never creates or destroys whitespace. -/
theorem pyIsSpace_pyToLower (c : Char) : pyIsSpace (pyToLower c) = pyIsSpace c := by
  unfold pyToLower
  by_cases h : 65 ≤ c.toNat ∧ c.toNat ≤ 90
  · rw [if_pos h]
    have h2 := toNat_ofNat_of_valid (valid_add32 h)
    have hL : pyIsSpace (Char.ofNat (c.toNat + 32)) = false := by
      simp [pyIsSpace, h2]
      omega
    have hR : pyIsSpace c = false := by
      simp [pyIsSpace]
      omega
    rw [hL, hR]
  · rw [if_neg h]

/-- Lower-casing a character is idempotent. -/
theorem pyToLower_idem (c : Char) : pyToLower (pyToLower c) = pyToLower c := by
  unfold pyToLower
  by_cases h : 65 ≤ c.toNat ∧ c.toNat ≤ 90
  · rw [if_pos h]
    have h2 := toNat_ofNat_of_valid (valid_add32 h)
    rw [if_neg]
    rw [h2]
    omega
  · rw [if_neg h, if_neg h]

/-- Stripping swallows an all-whitespace prefix. -/
theorem stripList_append_left (a l : List Char)
    (h : ∀ x ∈ a, pyIsSpace x = true) :
    stripList (a ++ l) = stripList l := by
  unfold stripList
  rw [List.dropWhile_append_of_pos h]

/-- Stripping swallows an all-whitespace suffix. -/
theorem stripList_append_right (l b : List Char)
    (h : ∀ x ∈ b, pyIsSpace x = true) :
    stripList (l ++ b) = stripList l := by
  unfold stripList
  by_cases hnil : l.dropWhile pyIsSpace = []
  · have hl : ∀ x ∈ l, pyIsSpace x = true := List.dropWhile_eq_nil_iff.mp hnil
    rw [List.dropWhile_append_of_pos hl, List.dropWhile_eq_nil_iff.mpr h, hnil]
  · rw [List.dropWhile_append, if_neg (by simpa [List.isEmpty_iff] using hnil),
      List.reverse_append,
      List.dropWhile_append_of_pos (by
        intro x hx
        exact h x (List.mem_reverse.mp hx))]

/-- Stripping ignores surrounding whitespace of the submitted text. -/
theorem pyStrip_append (pre s post : String)
    (hpre : ∀ ch ∈ pre.toList, pyIsSpace ch = true)
    (hpost : ∀ ch ∈ post.toList, pyIsSpace ch = true) :
    pyStrip (pre ++ s ++ post) = pyStrip s := by
  unfold pyStrip
  apply congrArg String.mk
  have h1 : (pre ++ s ++ post).toList = pre.toList ++ (s.toList ++ post.toList) := by
    simp [String.toList]
  rw [h1, stripList_append_left _ _ hpre, stripList_append_right _ _ hpost]

/-- Stripping and lower-casing commute. -/
theorem stripList_lowerList (l : List Char) :
    stripList (lowerList l) = lowerList (stripList l) := by
  have hcomp : pyIsSpace ∘ pyToLower = pyIsSpace := funext pyIsSpace_pyToLower
  simp [stripList, lowerList, List.dropWhile_map, hcomp, ← List.map_reverse]

/-- Lower-casing a string twice equals lower-casing it once. -/
theorem lowerList_idem (l : List Char) :
    lowerList (lowerList l) = lowerList l := by
  have hcomp : pyToLower ∘ pyToLower = pyToLower := funext pyToLower_idem
  simp [lowerList, List.map_map, hcomp]

/-- C8: a submission is judged correct exactly when the stored flag and the
submitted text agree after strip-then-lowercase normalisation of both; the
verdict is invariant under surrounding whitespace and under lower-casing the
submitted text. -/
theorem C8_flag_comparison_normalised (c : Challenge) (s : String) :
    (c.check_flag s = true ↔ pyLower (pyStrip s) = pyLower (pyStrip c.flag)) ∧
    (∀ pre post : String, (∀ ch ∈ pre.toList, pyIsSpace ch = true) →
      (∀ ch ∈ post.toList, pyIsSpace ch = true) →
      c.check_flag (pre ++ s ++ post) = c.check_flag s) ∧
    c.check_flag (pyLower s) = c.check_flag s := by
  refine ⟨?_, ?_, ?_⟩
  · unfold Challenge.check_flag
    rw [beq_iff_eq]
    exact eq_comm
  · intro pre post hpre hpost
    unfold Challenge.check_flag
    rw [pyStrip_append pre s post hpre hpost]
  · unfold Challenge.check_flag
    have hcomm : pyStrip (pyLower s) = pyLower (pyStrip s) :=
      congrArg String.mk (stripList_lowerList s.toList)
    rw [hcomm]
    have hidem : pyLower (pyLower (pyStrip s)) = pyLower (pyStrip s) :=
      congrArg String.mk (lowerList_idem (pyStrip s).toList)
    rw [hidem]

/-- C8 witness: surrounding spaces and case changes do not move the verdict on
a concrete challenge. -/
theorem C8_flag_witness :
    ((∀ ch ∈ (" " : String).toList, pyIsSpace ch = true) ∧
      C8ch.check_flag "secret" = true) ∧
    C8ch.check_flag (" " ++ "secret" ++ " ") = C8ch.check_flag "secret" ∧
    C8ch.check_flag (pyLower "SECRET") = C8ch.check_flag "SECRET" :=
  ⟨⟨by decide, by decide⟩,
   (C8_flag_comparison_normalised C8ch "secret").2.1 " " " " (by decide) (by decide),
   (C8_flag_comparison_normalised C8ch "SECRET").2.2⟩

/-- Stable insertion permutes. -/
theorem insertScoreDesc_perm (x : ScoreRow) (l : List ScoreRow) :
    (insertScoreDesc x l).Perm (x :: l) := by
  induction l with
  | nil => exact List.Perm.refl _
  | cons y ys ih =>
    unfold insertScoreDesc
    by_cases h : y.score ≤ x.score
    · rw [if_pos h]
    · rw [if_neg h]
      exact (ih.cons y).trans (List.Perm.swap x y ys)

/-- The scoreboard sort permutes its input rows. -/
theorem sortScoreDesc_perm (l : List ScoreRow) : (sortScoreDesc l).Perm l := by
  induction l with
  | nil => exact List.Perm.refl _
  | cons x xs ih =>
    exact (insertScoreDesc_perm x (sortScoreDesc xs)).trans (ih.cons x)

/-- Stable insertion preserves descending-by-score sortedness. -/
theorem insertScoreDesc_sorted {x : ScoreRow} {l : List ScoreRow}
    (hl : l.Pairwise (fun a b => b.score ≤ a.score)) :
    (insertScoreDesc x l).Pairwise (fun a b => b.score ≤ a.score) := by
  induction l with
  | nil => simp [insertScoreDesc]
  | cons y ys ih =>
    obtain ⟨hy, hys⟩ := List.pairwise_cons.mp hl
    unfold insertScoreDesc
    by_cases h : y.score ≤ x.score
    · rw [if_pos h]
      refine List.pairwise_cons.mpr ⟨?_, hl⟩
      intro b hb
      rcases List.mem_cons.mp hb with rfl | hb'
      · exact h
      · exact le_trans (hy b hb') h
    · rw [if_neg h]
      refine List.pairwise_cons.mpr ⟨?_, ih hys⟩
      intro b hb
      have hb' := (insertScoreDesc_perm x ys).mem_iff.mp hb
      rcases List.mem_cons.mp hb' with rfl | hb''
      · exact le_of_not_le h
      · exact hy b hb''

/-- The scoreboard sort yields a descending-by-score list. -/
theorem sortScoreDesc_sorted (l : List ScoreRow) :
    (sortScoreDesc l).Pairwise (fun a b => b.score ≤ a.score) := by
  induction l with
  | nil => exact List.Pairwise.nil
  | cons x xs ih => exact insertScoreDesc_sorted ih

/-- C9 amended: each leaderboard is exactly the aggregated rows (grouped
correct submissions with summed `points_awarded` and `max(created_at)`)
reordered descending by total score, with no timestamp tiebreak. -/
theorem C9_leaderboards_sorted_by_score (db : DB) :
    (scoreboardUsers db).Pairwise (fun a b => b.score ≤ a.score) ∧
    (scoreboardTeams db).Pairwise (fun a b => b.score ≤ a.score) ∧
    (scoreboardUsers db).Perm (db.users.filterMap (userAgg db)) ∧
    (scoreboardTeams db).Perm (db.teams.filterMap (teamAgg db)) :=
  ⟨sortScoreDesc_sorted _, sortScoreDesc_sorted _,
   sortScoreDesc_perm _, sortScoreDesc_perm _⟩

end YanLing

